import Mathlib

set_option maxRecDepth 10000

namespace WhizyIndexer

/- ===================================================================
   Keccak-256, as used by go-ethereum crypto.Keccak256Hash and by the
   EIP-55 address checksum (sha3.NewLegacyKeccak256, dsbyte 0x01).
   Bytes are Nat < 256; 64-bit lanes are Nat reduced mod 2^64.
   =================================================================== -/

def mask64 : Nat := 2 ^ 64 - 1

def rotl64 (x n : Nat) : Nat :=
  ((x <<< n) ||| (x >>> (64 - n))) &&& mask64

/-- Rotation offsets of the rho step, indexed by lane x + 5*y, generated
    by the standard walk (x,y) := (y, (2x+3y) mod 5) from (1,0) with
    offset (t+1)(t+2)/2 mod 64 at step t. -/
def rhoOffsets : List Nat :=
  (((List.range 24).foldl
    (fun st t =>
      match st with
      | (x, y, tbl) =>
        (y, (2 * x + 3 * y) % 5, tbl.set (x + 5 * y) ((t + 1) * (t + 2) / 2 % 64)))
    ((1, 0, List.replicate 25 0) : Nat × Nat × List Nat))).2.2

/-- The byte sequence of the degree-8 LFSR (x^8+x^6+x^5+x^4+1) driving
    the iota round constants. -/
def lfsrByte : Nat → Nat
  | 0 => 1
  | t + 1 =>
    let r := lfsrByte t
    ((r <<< 1) ^^^ ((r >>> 7) * 0x71)) % 256

/-- Round constant of round i: bit 2^j - 1 is the LFSR output at step
    j + 7*i, for j = 0..6. -/
def roundConstant (i : Nat) : Nat :=
  (List.range 7).foldl
    (fun acc j => acc ||| ((lfsrByte (j + 7 * i) % 2) <<< (2 ^ j - 1))) 0

/-- Round constants of the iota step, rounds 0..23. -/
def roundConstants : List Nat :=
  (List.range 24).map roundConstant

def theta (A : List Nat) : List Nat :=
  let C := (List.range 5).map fun x =>
    A.getD x 0 ^^^ A.getD (x + 5) 0 ^^^ A.getD (x + 10) 0 ^^^
      A.getD (x + 15) 0 ^^^ A.getD (x + 20) 0
  let D := (List.range 5).map fun x =>
    C.getD ((x + 4) % 5) 0 ^^^ rotl64 (C.getD ((x + 1) % 5) 0) 1
  (List.range 25).map fun i => A.getD i 0 ^^^ D.getD (i % 5) 0

def rhoPi (A : List Nat) : List Nat :=
  (List.range 25).map fun j =>
    let x := j % 5
    let y := j / 5
    let src := (x + 3 * y) % 5 + 5 * x
    rotl64 (A.getD src 0) (rhoOffsets.getD src 0)

def chi (B : List Nat) : List Nat :=
  (List.range 25).map fun j =>
    let x := j % 5
    let y := j / 5
    B.getD j 0 ^^^ ((B.getD ((x + 1) % 5 + 5 * y) 0 ^^^ mask64) &&&
      B.getD ((x + 2) % 5 + 5 * y) 0)

def iota' (rc : Nat) (A : List Nat) : List Nat :=
  A.set 0 (A.getD 0 0 ^^^ rc)

def keccakF (A : List Nat) : List Nat :=
  roundConstants.foldl (fun st rc => iota' rc (chi (rhoPi (theta st)))) A

/-- Eight bytes, little-endian, to one 64-bit lane. -/
def laneOfBytes (bs : List Nat) : Nat :=
  bs.reverse.foldl (fun acc b => acc * 256 + b) 0

def xorBlockIntoState (A block : List Nat) : List Nat :=
  (List.range 25).map fun i =>
    if i < 17 then A.getD i 0 ^^^ laneOfBytes ((block.drop (8 * i)).take 8)
    else A.getD i 0

def absorbBlocks : Nat → List Nat → List Nat → List Nat
  | 0, A, _ => A
  | n + 1, A, msg =>
    absorbBlocks n (keccakF (xorBlockIntoState A (msg.take 136))) (msg.drop 136)

/-- Legacy Keccak padding: domain byte 0x01, final bit 0x80. -/
def keccakPad (msg : List Nat) : List Nat :=
  let r := 136 - msg.length % 136
  if r = 1 then msg ++ [0x81]
  else msg ++ 0x01 :: List.replicate (r - 2) 0 ++ [0x80]

def keccak256 (msg : List Nat) : List Nat :=
  let padded := keccakPad msg
  let A := absorbBlocks (padded.length / 136) (List.replicate 25 0) padded
  (List.range 32).map fun i => (A.getD (i / 8) 0 >>> (8 * (i % 8))) &&& 255

/-- ASCII bytes of a string (all inputs used here are ASCII). -/
def asciiBytes (s : String) : List Nat := s.data.map Char.toNat

/- ===================================================================
   Hex rendering and addresses (go-ethereum common.Hash / common.Address).
   =================================================================== -/

/-- Lowercase hex digit for a nibble. -/
def hexDigit (n : Nat) : Char :=
  if n < 10 then Char.ofNat (48 + n) else Char.ofNat (87 + n)

def byteHexChars (b : Nat) : List Char :=
  [hexDigit (b / 16 % 16), hexDigit (b % 16)]

/-- Lowercase hex string of a byte sequence (no 0x). -/
def bytesHex (bs : List Nat) : String :=
  String.mk (bs.flatMap byteHexChars)

/-- common.Hash.Hex: 0x-prefixed lowercase hex. -/
def hashHex (bs : List Nat) : String := "0x" ++ bytesHex bs

/-- common.BytesToAddress: keep the last 20 bytes, left-pad with zeros. -/
def bytesToAddress (bs : List Nat) : List Nat :=
  let t := if bs.length ≥ 20 then bs.drop (bs.length - 20) else bs
  List.replicate (20 - t.length) 0 ++ t

/-- common.Address.Hex: EIP-55 checksummed hex of the 20 address bytes.
    The case of each hex letter is decided by the corresponding nibble of
    Keccak-256 of the ASCII lowercase hex string (go-ethereum checksumHex). -/
def checksumAddressHex (addr : List Nat) : String :=
  let lower := (bytesHex addr).data
  let h := keccak256 (lower.map Char.toNat)
  let cs := (List.range lower.length).map fun i =>
    let c := lower.getD i ' '
    let hb := h.getD (i / 2) 0
    let nib := if i % 2 = 0 then hb >>> 4 else hb &&& 0xf
    if 57 < c.toNat ∧ 7 < nib then Char.ofNat (c.toNat - 32) else c
  "0x" ++ String.mk cs

/-- common.BytesToAddress(bs).Hex() as used throughout the parser. -/
def addressHexOfWord (bs : List Nat) : String :=
  checksumAddressHex (bytesToAddress bs)

/-- big.Int SetBytes: big-endian bytes to a non-negative integer. -/
def beNat (bs : List Nat) : Nat :=
  bs.foldl (fun acc b => acc * 256 + b) 0

/-- big.Int.Uint64: low 64 bits of a non-negative value. -/
def natUint64 (n : Nat) : Nat := n % 2 ^ 64

/-- uint64(x) for x : int64 (two's-complement wrap). -/
def uint64OfInt (x : Int) : Nat := (x % (2 ^ 64 : Int)).toNat

/-- int64(n) for n : uint64 (two's-complement reinterpretation). -/
def int64OfNat (n : Nat) : Int :=
  let m : Nat := n % 2 ^ 64
  if m < 2 ^ 63 then (m : Int) else (m : Int) - (2 ^ 64 : Int)

/-- Go string(bytes): byte-transparent (payloads relevant here are ASCII). -/
def stringOfBytes (bs : List Nat) : String :=
  String.mk (bs.map Char.ofNat)

/-- ASCII case folding of one character (Go Unicode simple folding
    restricted to ASCII, which covers every address string involved). -/
def asciiLowerChar (c : Char) : Char :=
  if 65 ≤ c.toNat ∧ c.toNat ≤ 90 then Char.ofNat (c.toNat + 32) else c

def asciiLower (s : String) : String :=
  String.mk (s.data.map asciiLowerChar)

/-- strings.EqualFold restricted to ASCII folding (all contract addresses
    and all case variations considered by the claims are ASCII). -/
def eqFold (a b : String) : Bool := asciiLower a == asciiLower b

/-- Go slice expression l[a:b] over a slice whose capacity equals its
    length: in bounds it yields the sub-list, otherwise the program
    panics with a slice-bounds-out-of-range runtime error. -/
def goSlice (l : List Nat) (a b : Nat) : Option (List Nat) :=
  if a ≤ b ∧ b ≤ l.length then some ((l.drop a).take (b - a)) else none

/-- In-bounds slice l[a:b] (used where a preceding length guard makes the
    Go slice expression provably in bounds). -/
def subBytes (l : List Nat) (a b : Nat) : List Nat :=
  (l.drop a).take (b - a)

/- ===================================================================
   Data model (config/db.go).  config.BigInt fields are produced only by
   SetBytes/SetUint64, hence non-negative: modelled as Nat, with the Go
   zero value BigInt{nil} (rendered "0") modelled as 0.  Go `int` fields
   set via big.Int.Int64() are modelled as Int.
   =================================================================== -/

structure BetPlaced where
  id : String
  marketId : Nat
  user : String
  position : Bool
  amount : Nat
  shares : Nat
  blockNumber : Nat
  blockTimestamp : Nat
  transactionHash : String
  deriving DecidableEq, Repr

structure MarketCreated where
  id : String
  marketId : Nat
  question : String
  endTime : Nat
  tokenAddress : String
  vaultAddress : String
  blockNumber : Nat
  blockTimestamp : Nat
  transactionHash : String
  deriving DecidableEq, Repr

structure MarketResolved where
  id : String
  marketId : Nat
  outcome : Bool
  blockNumber : Nat
  blockTimestamp : Nat
  transactionHash : String
  deriving DecidableEq, Repr

structure WinningsClaimed where
  id : String
  marketId : Nat
  user : String
  winningAmount : Nat
  blockNumber : Nat
  blockTimestamp : Nat
  transactionHash : String
  deriving DecidableEq, Repr

structure AutoDepositExecuted where
  id : String
  user : String
  protocol : String
  amount : Nat
  success : Bool
  blockNumber : Nat
  blockTimestamp : Nat
  transactionHash : String
  deriving DecidableEq, Repr

structure AutoWithdrawExecuted where
  id : String
  user : String
  protocol : String
  amount : Nat
  success : Bool
  blockNumber : Nat
  blockTimestamp : Nat
  transactionHash : String
  deriving DecidableEq, Repr

structure OwnershipTransferred where
  id : String
  previousOwner : String
  newOwner : String
  blockNumber : Nat
  blockTimestamp : Nat
  transactionHash : String
  deriving DecidableEq, Repr

structure Paused where
  id : String
  account : String
  blockNumber : Nat
  blockTimestamp : Nat
  transactionHash : String
  deriving DecidableEq, Repr

structure ProtocolRegistered where
  id : String
  protocolType : Int
  protocolAddress : String
  name : String
  riskLevel : Int
  blockNumber : Nat
  blockTimestamp : Nat
  transactionHash : String
  deriving DecidableEq, Repr

structure ProtocolUpdated where
  id : String
  protocolAddress : String
  newApy : Nat
  newTvl : Nat
  blockNumber : Nat
  blockTimestamp : Nat
  transactionHash : String
  deriving DecidableEq, Repr

structure Unpaused where
  id : String
  account : String
  blockNumber : Nat
  blockTimestamp : Nat
  transactionHash : String
  deriving DecidableEq, Repr

/-- The closed union of decoded entity variants (Go passes these as
    interface values; the runtime type switch in storeEntities
    distinguishes exactly these eleven). -/
inductive Entity where
  | betPlaced (e : BetPlaced)
  | marketCreated (e : MarketCreated)
  | marketResolved (e : MarketResolved)
  | winningsClaimed (e : WinningsClaimed)
  | autoDepositExecuted (e : AutoDepositExecuted)
  | autoWithdrawExecuted (e : AutoWithdrawExecuted)
  | ownershipTransferred (e : OwnershipTransferred)
  | paused (e : Paused)
  | protocolRegistered (e : ProtocolRegistered)
  | protocolUpdated (e : ProtocolUpdated)
  | unpaused (e : Unpaused)
  deriving DecidableEq, Repr

/-- The ID field shared by every entity variant. -/
def Entity.entityId : Entity → String
  | .betPlaced e => e.id
  | .marketCreated e => e.id
  | .marketResolved e => e.id
  | .winningsClaimed e => e.id
  | .autoDepositExecuted e => e.id
  | .autoWithdrawExecuted e => e.id
  | .ownershipTransferred e => e.id
  | .paused e => e.id
  | .protocolRegistered e => e.id
  | .protocolUpdated e => e.id
  | .unpaused e => e.id

/-- Kind tags used to group entities by variant in storeEntities. -/
inductive Kind where
  | betPlaced | marketCreated | marketResolved | winningsClaimed
  | autoDepositExecuted | autoWithdrawExecuted | ownershipTransferred
  | paused | protocolRegistered | protocolUpdated | unpaused
  deriving DecidableEq, Repr

def Entity.kind : Entity → Kind
  | .betPlaced _ => .betPlaced
  | .marketCreated _ => .marketCreated
  | .marketResolved _ => .marketResolved
  | .winningsClaimed _ => .winningsClaimed
  | .autoDepositExecuted _ => .autoDepositExecuted
  | .autoWithdrawExecuted _ => .autoWithdrawExecuted
  | .ownershipTransferred _ => .ownershipTransferred
  | .paused _ => .paused
  | .protocolRegistered _ => .protocolRegistered
  | .protocolUpdated _ => .protocolUpdated
  | .unpaused _ => .unpaused

/-- Result of running a piece of Go code that may return an error value
    or hit a runtime panic (unrecovered panics crash the process). -/
inductive PResult (α : Type) where
  | panicked
  | failure (msg : String)
  | ok (val : α)
  deriving DecidableEq, Repr

def PResult.map {α β : Type} (f : α → β) : PResult α → PResult β
  | .panicked => .panicked
  | .failure m => .failure m
  | .ok v => .ok (f v)

def PResult.isOk {α : Type} : PResult α → Bool
  | .ok _ => true
  | _ => false

def PResult.isFailure {α : Type} : PResult α → Bool
  | .failure _ => true
  | _ => false

/- ===================================================================
   Raw logs and event signatures (indexer/parser.go).
   A topic is the 32 bytes of a common.Hash; data is the raw byte
   buffer; txHash the 32 bytes of the transaction hash.
   =================================================================== -/

structure Log where
  topics : List (List Nat)
  data : List Nat
  blockNumber : Nat
  txHash : List Nat
  index : Nat
  deriving DecidableEq, Repr

def BetPlacedSignature : List Nat :=
  keccak256 (asciiBytes "BetPlaced(uint256,address,bool,uint256,uint256)")

def MarketCreatedSignature : List Nat :=
  keccak256 (asciiBytes "MarketCreated(uint256,string,uint256,address,address)")

def MarketResolvedSignature : List Nat :=
  keccak256 (asciiBytes "MarketResolved(uint256,bool)")

def WinningsClaimedSignature : List Nat :=
  keccak256 (asciiBytes "WinningsClaimed(uint256,address,uint256)")

def AutoDepositExecutedSignature : List Nat :=
  keccak256 (asciiBytes "AutoDepositExecuted(address,address,uint256,bool)")

def AutoWithdrawExecutedSignature : List Nat :=
  keccak256 (asciiBytes "AutoWithdrawExecuted(address,address,uint256,bool)")

def OwnershipTransferredSignature : List Nat :=
  keccak256 (asciiBytes "OwnershipTransferred(address,address)")

def PausedSignature : List Nat :=
  keccak256 (asciiBytes "Paused(address)")

def ProtocolRegisteredSignature : List Nat :=
  keccak256 (asciiBytes "ProtocolRegistered(uint8,address,string,uint8)")

def ProtocolUpdatedSignature : List Nat :=
  keccak256 (asciiBytes "ProtocolUpdated(address,uint256,uint256)")

def UnpausedSignature : List Nat :=
  keccak256 (asciiBytes "Unpaused(address)")

/- ===================================================================
   Per-event decoders (indexer/parser.go).  Each takes the log plus the
   already-synthesized id / blockNumber / blockTimestamp / txHash, just
   like the Go helpers.  Fields not assigned by the Go code stay at
   their Go zero values.
   =================================================================== -/

def parseBetPlaced (log : Log) (id : String) (blockNumber blockTimestamp : Nat)
    (txHash : String) : PResult BetPlaced :=
  if log.topics.length < 3 then .failure "insufficient topics for BetPlaced"
  else
    let base : BetPlaced :=
      { id := id, marketId := beNat (log.topics.getD 1 []),
        user := addressHexOfWord (log.topics.getD 2 []),
        position := false, amount := 0, shares := 0,
        blockNumber := blockNumber, blockTimestamp := blockTimestamp,
        transactionHash := txHash }
    if log.data.length ≥ 96 then
      .ok { base with
            position := beNat (subBytes log.data 0 32) != 0,
            amount := beNat (subBytes log.data 32 64),
            shares := beNat (subBytes log.data 64 96) }
    else .ok base

def parseMarketCreated (log : Log) (id : String) (blockNumber blockTimestamp : Nat)
    (txHash : String) : PResult MarketCreated :=
  if log.topics.length < 2 then .failure "insufficient topics for MarketCreated"
  else
    let base : MarketCreated :=
      { id := id, marketId := beNat (log.topics.getD 1 []),
        question := "", endTime := 0, tokenAddress := "", vaultAddress := "",
        blockNumber := blockNumber, blockTimestamp := blockTimestamp,
        transactionHash := txHash }
    if log.data.length ≥ 128 then
      let offset := natUint64 (beNat (subBytes log.data 0 32))
      let withFixed : MarketCreated :=
        { base with
          endTime := beNat (subBytes log.data 32 64),
          tokenAddress := addressHexOfWord (subBytes log.data 64 96),
          vaultAddress := addressHexOfWord (subBytes log.data 96 128) }
      if log.data.length > natUint64 (offset + 32) then
        match goSlice log.data offset (natUint64 (offset + 32)) with
        | none => .panicked
        | some lenWord =>
          let strLen := natUint64 (beNat lenWord)
          if log.data.length ≥ natUint64 (offset + 32 + strLen) then
            match goSlice log.data (natUint64 (offset + 32))
                (natUint64 (offset + 32 + strLen)) with
            | none => .panicked
            | some strBytes => .ok { withFixed with question := stringOfBytes strBytes }
          else .ok withFixed
      else .ok withFixed
    else .ok base

def parseMarketResolved (log : Log) (id : String) (blockNumber blockTimestamp : Nat)
    (txHash : String) : PResult MarketResolved :=
  if log.topics.length < 2 then .failure "insufficient topics for MarketResolved"
  else
    let base : MarketResolved :=
      { id := id, marketId := beNat (log.topics.getD 1 []), outcome := false,
        blockNumber := blockNumber, blockTimestamp := blockTimestamp,
        transactionHash := txHash }
    if log.data.length ≥ 32 then
      .ok { base with outcome := beNat (subBytes log.data 0 32) != 0 }
    else .ok base

def parseWinningsClaimed (log : Log) (id : String) (blockNumber blockTimestamp : Nat)
    (txHash : String) : PResult WinningsClaimed :=
  if log.topics.length < 3 then .failure "insufficient topics for WinningsClaimed"
  else
    let base : WinningsClaimed :=
      { id := id, marketId := beNat (log.topics.getD 1 []),
        user := addressHexOfWord (log.topics.getD 2 []), winningAmount := 0,
        blockNumber := blockNumber, blockTimestamp := blockTimestamp,
        transactionHash := txHash }
    if log.data.length ≥ 32 then
      .ok { base with winningAmount := beNat (subBytes log.data 0 32) }
    else .ok base

def parseAutoDepositExecuted (log : Log) (id : String) (blockNumber blockTimestamp : Nat)
    (txHash : String) : PResult AutoDepositExecuted :=
  if log.topics.length < 3 then .failure "insufficient topics for AutoDepositExecuted"
  else
    let base : AutoDepositExecuted :=
      { id := id, user := addressHexOfWord (log.topics.getD 1 []),
        protocol := addressHexOfWord (log.topics.getD 2 []),
        amount := 0, success := false,
        blockNumber := blockNumber, blockTimestamp := blockTimestamp,
        transactionHash := txHash }
    if log.data.length ≥ 64 then
      .ok { base with
            amount := beNat (subBytes log.data 0 32),
            success := beNat (subBytes log.data 32 64) != 0 }
    else .ok base

def parseAutoWithdrawExecuted (log : Log) (id : String) (blockNumber blockTimestamp : Nat)
    (txHash : String) : PResult AutoWithdrawExecuted :=
  if log.topics.length < 3 then .failure "insufficient topics for AutoWithdrawExecuted"
  else
    let base : AutoWithdrawExecuted :=
      { id := id, user := addressHexOfWord (log.topics.getD 1 []),
        protocol := addressHexOfWord (log.topics.getD 2 []),
        amount := 0, success := false,
        blockNumber := blockNumber, blockTimestamp := blockTimestamp,
        transactionHash := txHash }
    if log.data.length ≥ 64 then
      .ok { base with
            amount := beNat (subBytes log.data 0 32),
            success := beNat (subBytes log.data 32 64) != 0 }
    else .ok base

def parseOwnershipTransferred (log : Log) (id : String) (blockNumber blockTimestamp : Nat)
    (txHash : String) : PResult OwnershipTransferred :=
  if log.topics.length < 3 then .failure "insufficient topics for OwnershipTransferred"
  else
    .ok { id := id, previousOwner := addressHexOfWord (log.topics.getD 1 []),
          newOwner := addressHexOfWord (log.topics.getD 2 []),
          blockNumber := blockNumber, blockTimestamp := blockTimestamp,
          transactionHash := txHash }

def parsePaused (log : Log) (id : String) (blockNumber blockTimestamp : Nat)
    (txHash : String) : PResult Paused :=
  let base : Paused :=
    { id := id, account := "", blockNumber := blockNumber,
      blockTimestamp := blockTimestamp, transactionHash := txHash }
  if log.data.length ≥ 32 then
    .ok { base with account := addressHexOfWord (subBytes log.data 0 32) }
  else .ok base

def parseProtocolRegistered (log : Log) (id : String) (blockNumber blockTimestamp : Nat)
    (txHash : String) : PResult ProtocolRegistered :=
  if log.topics.length < 3 then .failure "insufficient topics for ProtocolRegistered"
  else
    let base : ProtocolRegistered :=
      { id := id, protocolType := int64OfNat (beNat (log.topics.getD 1 [])),
        protocolAddress := addressHexOfWord (log.topics.getD 2 []),
        name := "", riskLevel := 0,
        blockNumber := blockNumber, blockTimestamp := blockTimestamp,
        transactionHash := txHash }
    if log.data.length ≥ 64 then
      let offset := natUint64 (beNat (subBytes log.data 0 32))
      let withFixed : ProtocolRegistered :=
        { base with riskLevel := int64OfNat (beNat (subBytes log.data 32 64)) }
      if log.data.length > natUint64 (offset + 32) then
        match goSlice log.data offset (natUint64 (offset + 32)) with
        | none => .panicked
        | some lenWord =>
          let strLen := natUint64 (beNat lenWord)
          if log.data.length ≥ natUint64 (offset + 32 + strLen) then
            match goSlice log.data (natUint64 (offset + 32))
                (natUint64 (offset + 32 + strLen)) with
            | none => .panicked
            | some strBytes => .ok { withFixed with name := stringOfBytes strBytes }
          else .ok withFixed
      else .ok withFixed
    else .ok base

def parseProtocolUpdated (log : Log) (id : String) (blockNumber blockTimestamp : Nat)
    (txHash : String) : PResult ProtocolUpdated :=
  if log.topics.length < 2 then .failure "insufficient topics for ProtocolUpdated"
  else
    let base : ProtocolUpdated :=
      { id := id, protocolAddress := addressHexOfWord (log.topics.getD 1 []),
        newApy := 0, newTvl := 0,
        blockNumber := blockNumber, blockTimestamp := blockTimestamp,
        transactionHash := txHash }
    if log.data.length ≥ 64 then
      .ok { base with
            newApy := beNat (subBytes log.data 0 32),
            newTvl := beNat (subBytes log.data 32 64) }
    else .ok base

def parseUnpaused (log : Log) (id : String) (blockNumber blockTimestamp : Nat)
    (txHash : String) : PResult Unpaused :=
  let base : Unpaused :=
    { id := id, account := "", blockNumber := blockNumber,
      blockTimestamp := blockTimestamp, transactionHash := txHash }
  if log.data.length ≥ 32 then
    .ok { base with account := addressHexOfWord (subBytes log.data 0 32) }
  else .ok base

/- ===================================================================
   ParseLog (indexer/parser.go).  The two monitored contract addresses
   are process-wide configuration (config.WhizyPredictionMarketContract,
   config.ProtocolSelectorContract); they are passed explicitly here.
   =================================================================== -/

structure ContractsCfg where
  whizyAddress : String
  protocolAddress : String
  deriving DecidableEq, Repr

def unknownEventMsg (eventSig : List Nat) (contractAddress : String) : String :=
  "unknown event signature: " ++ hashHex eventSig ++ " for contract " ++ contractAddress

/-- The first guarded switch of ParseLog: the WhizyPredictionMarket
    block.  Yields none when the address does not match or topic0
    matches none of its four signatures (Go falls through). -/
def whizyDispatch (cfg : ContractsCfg) (log : Log) (contractAddress : String)
    (blockTimestamp : Nat) (eventSig : List Nat) (id : String) (blockNumber : Nat)
    (txHash : String) : Option (PResult Entity) :=
  if eqFold contractAddress cfg.whizyAddress then
    if eventSig == BetPlacedSignature then
      some ((parseBetPlaced log id blockNumber blockTimestamp txHash).map .betPlaced)
    else if eventSig == MarketCreatedSignature then
      some ((parseMarketCreated log id blockNumber blockTimestamp txHash).map .marketCreated)
    else if eventSig == MarketResolvedSignature then
      some ((parseMarketResolved log id blockNumber blockTimestamp txHash).map .marketResolved)
    else if eventSig == WinningsClaimedSignature then
      some ((parseWinningsClaimed log id blockNumber blockTimestamp txHash).map .winningsClaimed)
    else none
  else none

/-- The second guarded switch of ParseLog: the ProtocolSelector block. -/
def protocolDispatch (cfg : ContractsCfg) (log : Log) (contractAddress : String)
    (blockTimestamp : Nat) (eventSig : List Nat) (id : String) (blockNumber : Nat)
    (txHash : String) : Option (PResult Entity) :=
  if eqFold contractAddress cfg.protocolAddress then
    if eventSig == AutoDepositExecutedSignature then
      some ((parseAutoDepositExecuted log id blockNumber blockTimestamp txHash).map .autoDepositExecuted)
    else if eventSig == AutoWithdrawExecutedSignature then
      some ((parseAutoWithdrawExecuted log id blockNumber blockTimestamp txHash).map .autoWithdrawExecuted)
    else if eventSig == OwnershipTransferredSignature then
      some ((parseOwnershipTransferred log id blockNumber blockTimestamp txHash).map .ownershipTransferred)
    else if eventSig == PausedSignature then
      some ((parsePaused log id blockNumber blockTimestamp txHash).map .paused)
    else if eventSig == ProtocolRegisteredSignature then
      some ((parseProtocolRegistered log id blockNumber blockTimestamp txHash).map .protocolRegistered)
    else if eventSig == ProtocolUpdatedSignature then
      some ((parseProtocolUpdated log id blockNumber blockTimestamp txHash).map .protocolUpdated)
    else if eventSig == UnpausedSignature then
      some ((parseUnpaused log id blockNumber blockTimestamp txHash).map .unpaused)
    else none
  else none

def ParseLog (cfg : ContractsCfg) (log : Log) (contractAddress : String)
    (blockTimestamp : Nat) : PResult Entity :=
  match log.topics with
  | [] => .failure "log has no topics"
  | eventSig :: _ =>
    let txHash := hashHex log.txHash
    let blockNumber := log.blockNumber
    let id := txHash ++ "-" ++ toString log.index
    match whizyDispatch cfg log contractAddress blockTimestamp eventSig id blockNumber txHash with
    | some r => r
    | none =>
      match protocolDispatch cfg log contractAddress blockTimestamp eventSig id blockNumber txHash with
      | some r => r
      | none => .failure (unknownEventMsg eventSig contractAddress)

/- ===================================================================
   Per-contract sync state (config/db.go) and one cycle of the indexing
   loop (indexContract / processBlockRange / storeEntities).  The
   external collaborators — the DB read/save, the RPC calls and the
   per-kind batch inserts — are supplied as a per-cycle environment.
   =================================================================== -/

structure SyncState where
  contractAddress : String
  contractName : String
  lastBlock : Int
  lastBlockHash : String
  deriving DecidableEq, Repr

structure CycleEnv where
  readOk : Bool
  height : Option Nat
  logsResult : Except String (List Log)
  timestampOf : Nat → Option Nat
  wallClock : Nat
  insertErr : Kind → Option String
  saveOk : Bool

/-- The timestamp a block resolves to: the RPC answer, degrading to the
    current wall-clock time when the RPC call fails. -/
def directTs (env : CycleEnv) (blockNum : Nat) : Nat :=
  (env.timestampOf blockNum).getD env.wallClock

def lookupTs : List (Nat × Nat) → Nat → Option Nat
  | [], _ => none
  | (k, v) :: rest, n => if k = n then some v else lookupTs rest n

/-- Resolve a block timestamp through the per-batch cache, populating it
    on a miss exactly as the loop body does. -/
def resolveTs (env : CycleEnv) (cache : List (Nat × Nat)) (blockNum : Nat) :
    Nat × List (Nat × Nat) :=
  match lookupTs cache blockNum with
  | some t => (t, cache)
  | none =>
    let t := directTs env blockNum
    (t, (blockNum, t) :: cache)

/-- The decode loop of processBlockRange: resolve the timestamp, parse,
    skip logs that fail to parse, collect the rest in order.  A decoder
    panic propagates (it would crash the process). -/
def decodeLogs (cfg : ContractsCfg) (env : CycleEnv) (contractAddress : String) :
    List Log → List (Nat × Nat) → PResult (List Entity)
  | [], _ => .ok []
  | log :: rest, cache =>
    let r := resolveTs env cache log.blockNumber
    match ParseLog cfg log contractAddress r.1 with
    | .panicked => .panicked
    | .failure _ => decodeLogs cfg env contractAddress rest r.2
    | .ok e =>
      match decodeLogs cfg env contractAddress rest r.2 with
      | .panicked => .panicked
      | .failure m => .failure m
      | .ok es => .ok (e :: es)

/-- The source order of the per-kind insert blocks in storeEntities. -/
def kindOrder : List Kind :=
  [.betPlaced, .marketCreated, .marketResolved, .winningsClaimed,
   .autoDepositExecuted, .autoWithdrawExecuted, .ownershipTransferred,
   .paused, .protocolRegistered, .protocolUpdated, .unpaused]

def kindName : Kind → String
  | .betPlaced => "BetPlaced"
  | .marketCreated => "MarketCreated"
  | .marketResolved => "MarketResolved"
  | .winningsClaimed => "WinningsClaimed"
  | .autoDepositExecuted => "AutoDepositExecuted"
  | .autoWithdrawExecuted => "AutoWithdrawExecuted"
  | .ownershipTransferred => "OwnershipTransferred"
  | .paused => "Paused"
  | .protocolRegistered => "ProtocolRegistered"
  | .protocolUpdated => "ProtocolUpdated"
  | .unpaused => "Unpaused"

/-- storeEntities: partition the decoded entities by variant kind (the
    Go type switch) and run the per-kind duplicate-safe batch inserts in
    source order, surfacing the first insert error. -/
def storeEntitiesOver (insertErr : Kind → Option String) (entities : List Entity) :
    List Kind → Except String Unit
  | [] => .ok ()
  | k :: rest =>
    if (entities.filter (fun e => e.kind == k)).isEmpty then
      storeEntitiesOver insertErr entities rest
    else
      match insertErr k with
      | some msg => .error ("failed to insert " ++ kindName k ++ ": " ++ msg)
      | none => storeEntitiesOver insertErr entities rest

def storeEntities (insertErr : Kind → Option String) (entities : List Entity) :
    Except String Unit :=
  storeEntitiesOver insertErr entities kindOrder

def processBlockRange (cfg : ContractsCfg) (env : CycleEnv) (contractAddress : String)
    (fromBlock toBlock : Nat) : PResult Unit :=
  match env.logsResult with
  | .error e => .failure ("failed to fetch logs: " ++ e)
  | .ok logs =>
    if logs.isEmpty then .ok ()
    else
      match decodeLogs cfg env contractAddress logs [] with
      | .panicked => .panicked
      | .failure m => .failure m
      | .ok entities =>
        if entities.isEmpty then .ok ()
        else
          match storeEntities env.insertErr entities with
          | .error m => .failure m
          | .ok _ => .ok ()

/-- The range computation of one loop cycle (indexContract lines 68-77):
    idle when the cursor has reached the chain height, otherwise
    [cursor+1, cursor+batchSize] clamped to the latest height, all in
    uint64 arithmetic. -/
def computeRange (batchSize : Int) (lastBlock : Int) (latest : Nat) :
    Option (Nat × Nat) :=
  let cursorU := uint64OfInt lastBlock
  if cursorU ≥ latest then none
  else
    let fromBlock := (cursorU + 1) % 2 ^ 64
    let toBlock0 := (fromBlock + uint64OfInt batchSize + (2 ^ 64 - 1)) % 2 ^ 64
    some (fromBlock, if toBlock0 > latest then latest else toBlock0)

inductive CycleResult where
  | readErr
  | heightErr
  | idle
  | rangeErr (fromBlock toBlock : Nat)
  | crash (fromBlock toBlock : Nat)
  | saveErr (fromBlock toBlock : Nat)
  | ok (fromBlock toBlock : Nat)
  deriving DecidableEq, Repr

def CycleResult.isOk : CycleResult → Bool
  | .ok _ _ => true
  | _ => false

/-- One iteration of the indexContract loop body: read the stored sync
    state, fetch the chain height, compute the range, process it, and
    persist the advanced cursor only when processing succeeded.  The
    returned SyncState is the stored (durable) one: every failure path
    leaves it unchanged and the next iteration re-reads it. -/
def indexCycle (cfg : ContractsCfg) (batchSize : Int) (contractAddress : String)
    (st : SyncState) (env : CycleEnv) : SyncState × CycleResult :=
  if !env.readOk then (st, .readErr)
  else
    match env.height with
    | none => (st, .heightErr)
    | some latest =>
      match computeRange batchSize st.lastBlock latest with
      | none => (st, .idle)
      | some (fromBlock, toBlock) =>
        match processBlockRange cfg env contractAddress fromBlock toBlock with
        | .panicked => (st, .crash fromBlock toBlock)
        | .failure _ => (st, .rangeErr fromBlock toBlock)
        | .ok _ =>
          let st' := { st with lastBlock := int64OfNat toBlock }
          if env.saveOk then (st', .ok fromBlock toBlock)
          else (st, .saveErr fromBlock toBlock)

/-- Consecutive loop cycles, each against its own environment; yields
    the stored sync state and outcome after each cycle. -/
def runTrace (cfg : ContractsCfg) (batchSize : Int) (contractAddress : String) :
    SyncState → List CycleEnv → List (SyncState × CycleResult)
  | _, [] => []
  | st, env :: rest =>
    let step := indexCycle cfg batchSize contractAddress st env
    step :: runTrace cfg batchSize contractAddress step.1 rest

/- ===================================================================
   Concrete fixtures.
   =================================================================== -/

/-- Big-endian 32-byte ABI word of a value below 2^256. -/
def beWord (n : Nat) : List Nat :=
  (List.range 32).map fun i => n / 256 ^ (31 - i) % 256

/-- The BetPlaced fixture of C3: topic1 = market id 7, topic2 = the
    address of twenty 0xAA bytes, data = a non-zero word, 100, 50. -/
def c3Log : Log :=
  { topics := [BetPlacedSignature, beWord 7, beWord (beNat (List.replicate 20 0xAA))],
    data := beWord 1 ++ beWord 100 ++ beWord 50,
    blockNumber := 1, txHash := List.replicate 32 0, index := 0 }

/-- A MarketCreated-shaped log whose dynamic-string offset word is
    2^64 - 16: the uint64 sum offset+32 wraps to 16, the bound guard
    passes, and the slice expression data[offset : offset+32] is out of
    range. -/
def c4Log : Log :=
  { topics := [MarketCreatedSignature, beWord 7],
    data := beWord (2 ^ 64 - 16) ++ beWord 9 ++ beWord 0 ++ beWord 0,
    blockNumber := 1, txHash := List.replicate 32 0, index := 0 }

/-- The entity the C3 claim literally expects: User all-lowercase. -/
def c3ClaimedEntity : BetPlaced :=
  { id := "id", marketId := 7,
    user := "0xaaaaaaaaaaaaaaaaaaaaaaaaaaaaaaaaaaaaaaaa",
    position := true, amount := 100, shares := 50,
    blockNumber := 1, blockTimestamp := 1000, transactionHash := "txh" }

/-- The entity the code actually produces: User in EIP-55 checksummed
    mixed case (computed by the embedded Keccak-256). -/
def c3ActualEntity : BetPlaced :=
  { id := "id", marketId := 7,
    user := "0xaAaAaAaaAaAaAaaAaAAAAAAAAaaaAaAaAaaAaaAa",
    position := true, amount := 100, shares := 50,
    blockNumber := 1, blockTimestamp := 1000, transactionHash := "txh" }

def c8Cfg : ContractsCfg :=
  { whizyAddress := "0x01", protocolAddress := "0x02" }

def c8Log : Log :=
  { topics := [PausedSignature], data := [], blockNumber := 9,
    txHash := List.replicate 32 0, index := 3 }

def c8Entity : Entity :=
  Entity.paused
    { id := hashHex (List.replicate 32 0) ++ "-" ++ toString 3,
      account := "", blockNumber := 9, blockTimestamp := 77,
      transactionHash := hashHex (List.replicate 32 0) }

def c9Cfg : ContractsCfg :=
  { whizyAddress := "0x01", protocolAddress := "0x02" }

def c9Log : Log :=
  { topics := [List.replicate 32 0], data := [], blockNumber := 1,
    txHash := List.replicate 32 0, index := 0 }

def c7Cfg : ContractsCfg :=
  { whizyAddress := "0x0a", protocolAddress := "0x0b" }

def c7Env : CycleEnv :=
  { readOk := true, height := none, logsResult := .ok [],
    timestampOf := fun _ => none, wallClock := 0,
    insertErr := fun _ => none, saveOk := true }

def c7Bad : Log :=
  { topics := [List.replicate 32 1], data := [], blockNumber := 5,
    txHash := List.replicate 32 0, index := 0 }

def cwCfg : ContractsCfg :=
  { whizyAddress := "0x01", protocolAddress := "0x02" }

def cwState : SyncState :=
  { contractAddress := "0x01", contractName := "whizy",
    lastBlock := 5, lastBlockHash := "" }

def cwEnvOk : CycleEnv :=
  { readOk := true, height := some 20, logsResult := .ok [],
    timestampOf := fun _ => none, wallClock := 0,
    insertErr := fun _ => none, saveOk := true }

def cwEnvFail : CycleEnv :=
  { readOk := true, height := some 20, logsResult := .error "boom",
    timestampOf := fun _ => none, wallClock := 0,
    insertErr := fun _ => none, saveOk := true }

def cwEnvInsertFail : CycleEnv :=
  { readOk := true, height := some 20,
    logsResult := .ok [{ topics := [PausedSignature], data := [], blockNumber := 9,
                          txHash := List.replicate 32 0, index := 3 }],
    timestampOf := fun _ => some 77, wallClock := 0,
    insertErr := fun _ => some "db down", saveOk := true }

def cwPausedEntity : Entity :=
  Entity.paused
    { id := hashHex (List.replicate 32 0) ++ "-" ++ toString 3,
      account := "", blockNumber := 9, blockTimestamp := 77,
      transactionHash := hashHex (List.replicate 32 0) }

def cwEnvA : CycleEnv :=
  { readOk := true, height := some 7, logsResult := .ok [],
    timestampOf := fun _ => none, wallClock := 0,
    insertErr := fun _ => none, saveOk := true }

def cwEnvB : CycleEnv :=
  { readOk := true, height := some 20, logsResult := .ok [],
    timestampOf := fun _ => none, wallClock := 0,
    insertErr := fun _ => none, saveOk := true }

def cwState0 : SyncState :=
  { contractAddress := "0x01", contractName := "whizy",
    lastBlock := 0, lastBlockHash := "" }

/-- Cache-free form of the decode loop; the per-batch timestamp cache
    only memoizes the deterministic resolver, so the two agree. -/
def decodeLogsPure (cfg : ContractsCfg) (env : CycleEnv) (contractAddress : String) :
    List Log → PResult (List Entity)
  | [] => .ok []
  | log :: rest =>
    match ParseLog cfg log contractAddress (directTs env log.blockNumber) with
    | .panicked => .panicked
    | .failure _ => decodeLogsPure cfg env contractAddress rest
    | .ok e =>
      match decodeLogsPure cfg env contractAddress rest with
      | .panicked => .panicked
      | .failure m => .failure m
      | .ok es => .ok (e :: es)

end WhizyIndexer

namespace WhizyIndexer

/- ===================================================================
   Claims.
   =================================================================== -/

/-- C3 counterexample: the fixture's decoded User field is not the
    all-lowercase string 0xaa...aa, because common.Address.Hex renders
    the EIP-55 checksummed mixed-case form. -/
theorem c3_counterexample :
    parseBetPlaced c3Log "id" 1 1000 "txh" ≠ PResult.ok c3ClaimedEntity := by
  decide

/-- C3 amended: decoding the BetPlaced fixture yields MarketID 7,
    Position true, Amount 100, Shares 50, and the EIP-55 checksummed
    rendering of the 0xAA...AA address as User. -/
theorem c3_betPlaced_decode :
    parseBetPlaced c3Log "id" 1 1000 "txh" = PResult.ok c3ActualEntity := by
  decide

/-- C4: a MarketCreated-shaped log with 2 topics and 128 bytes of data
    whose string offset word makes offset+32 wrap in uint64 passes the
    bound guard and panics on the slice expression instead of decoding
    with an empty Question. -/
theorem c4_market_created_wrap_offset_panics :
    parseMarketCreated c4Log "id" 1 1000 "txh" = PResult.panicked := by
  decide

/-- C10: parsePaused and parseUnpaused are total — they return an
    entity for every input, with Account left at the empty-string
    default whenever data is shorter than 32 bytes — while each of the
    other nine decoders rejects a log with no indexed-field topics. -/
theorem c10_paused_unpaused_total :
    (∀ (log : Log) (id : String) (bn ts : Nat) (txh : String),
      ∃ e : Paused, parsePaused log id bn ts txh = .ok e ∧
        (log.data.length < 32 → e.account = "")) ∧
    (∀ (log : Log) (id : String) (bn ts : Nat) (txh : String),
      ∃ e : Unpaused, parseUnpaused log id bn ts txh = .ok e ∧
        (log.data.length < 32 → e.account = "")) ∧
    (∀ (log : Log) (id : String) (bn ts : Nat) (txh : String), log.topics = [] →
      (parseBetPlaced log id bn ts txh).isFailure = true ∧
      (parseMarketCreated log id bn ts txh).isFailure = true ∧
      (parseMarketResolved log id bn ts txh).isFailure = true ∧
      (parseWinningsClaimed log id bn ts txh).isFailure = true ∧
      (parseAutoDepositExecuted log id bn ts txh).isFailure = true ∧
      (parseAutoWithdrawExecuted log id bn ts txh).isFailure = true ∧
      (parseOwnershipTransferred log id bn ts txh).isFailure = true ∧
      (parseProtocolRegistered log id bn ts txh).isFailure = true ∧
      (parseProtocolUpdated log id bn ts txh).isFailure = true) := by
  refine ⟨?_, ?_, ?_⟩
  · intro log id bn ts txh
    unfold parsePaused
    try dsimp only
    split
    · next h => exact ⟨_, rfl, fun hlt => absurd hlt (by omega)⟩
    · exact ⟨_, rfl, fun _ => rfl⟩
  · intro log id bn ts txh
    unfold parseUnpaused
    try dsimp only
    split
    · next h => exact ⟨_, rfl, fun hlt => absurd hlt (by omega)⟩
    · exact ⟨_, rfl, fun _ => rfl⟩
  · intro log id bn ts txh htopics
    refine ⟨?_, ?_, ?_, ?_, ?_, ?_, ?_, ?_, ?_⟩ <;>
      simp [parseBetPlaced, parseMarketCreated, parseMarketResolved,
        parseWinningsClaimed, parseAutoDepositExecuted, parseAutoWithdrawExecuted,
        parseOwnershipTransferred, parseProtocolRegistered, parseProtocolUpdated,
        htopics, PResult.isFailure]

/-- C10 witness: a data-less log decodes through parsePaused and
    parseUnpaused with empty Account, and a topic-less log is rejected
    by the other nine decoders. -/
theorem c10_witness :
    (∃ e : Paused,
        parsePaused { topics := [], data := [], blockNumber := 1,
                      txHash := List.replicate 32 0, index := 0 } "i" 1 2 "t" = .ok e ∧
        (([] : List Nat).length < 32 → e.account = "")) ∧
    (parseBetPlaced { topics := [], data := [], blockNumber := 1,
                      txHash := List.replicate 32 0, index := 0 } "i" 1 2 "t").isFailure = true := by
  constructor
  · exact c10_paused_unpaused_total.1
      { topics := [], data := [], blockNumber := 1,
        txHash := List.replicate 32 0, index := 0 } "i" 1 2 "t"
  · exact (c10_paused_unpaused_total.2.2
      { topics := [], data := [], blockNumber := 1,
        txHash := List.replicate 32 0, index := 0 } "i" 1 2 "t" rfl).1

/-- C5: a log routed to the BetPlaced decoder (whizy contract address,
    topic0 = BetPlaced signature) with fewer than 3 topics makes
    ParseLog fail with the insufficient-topics error and produce no
    entity. -/
theorem c5_insufficient_topics (cfg : ContractsCfg) (log : Log) (addr : String)
    (ts : Nat) (rest : List (List Nat))
    (htopics : log.topics = BetPlacedSignature :: rest)
    (hlen : log.topics.length < 3)
    (haddr : eqFold addr cfg.whizyAddress = true) :
    ParseLog cfg log addr ts = .failure "insufficient topics for BetPlaced" := by
  have hbp : parseBetPlaced log (hashHex log.txHash ++ "-" ++ toString log.index)
      log.blockNumber ts (hashHex log.txHash) =
      .failure "insufficient topics for BetPlaced" := by
    unfold parseBetPlaced
    rw [if_pos hlen]
  unfold ParseLog
  rw [htopics]
  try dsimp only
  unfold whizyDispatch
  simp [haddr, hbp, PResult.map]

/-- Every PResult.map that lands in ok comes from an ok of the base. -/
theorem mapOkEntity {α : Type} {f : α → Entity} {r : PResult α} {e : Entity}
    (h : r.map f = .ok e) : ∃ v, r = .ok v ∧ e = f v := by
  cases r with
  | panicked => cases h
  | failure m => cases h
  | ok v =>
    cases h
    exact ⟨v, rfl, rfl⟩

theorem parseBetPlaced_ok_id {log : Log} {id txh : String} {bn ts : Nat}
    {e : BetPlaced} (h : parseBetPlaced log id bn ts txh = .ok e) : e.id = id := by
  unfold parseBetPlaced at h
  try dsimp only at h
  repeat' split at h
  all_goals cases h
  all_goals rfl

theorem parseMarketCreated_ok_id {log : Log} {id txh : String} {bn ts : Nat}
    {e : MarketCreated} (h : parseMarketCreated log id bn ts txh = .ok e) : e.id = id := by
  unfold parseMarketCreated at h
  try dsimp only at h
  repeat' split at h
  all_goals cases h
  all_goals rfl

theorem parseMarketResolved_ok_id {log : Log} {id txh : String} {bn ts : Nat}
    {e : MarketResolved} (h : parseMarketResolved log id bn ts txh = .ok e) : e.id = id := by
  unfold parseMarketResolved at h
  try dsimp only at h
  repeat' split at h
  all_goals cases h
  all_goals rfl

theorem parseWinningsClaimed_ok_id {log : Log} {id txh : String} {bn ts : Nat}
    {e : WinningsClaimed} (h : parseWinningsClaimed log id bn ts txh = .ok e) : e.id = id := by
  unfold parseWinningsClaimed at h
  try dsimp only at h
  repeat' split at h
  all_goals cases h
  all_goals rfl

theorem parseAutoDepositExecuted_ok_id {log : Log} {id txh : String} {bn ts : Nat}
    {e : AutoDepositExecuted} (h : parseAutoDepositExecuted log id bn ts txh = .ok e) :
    e.id = id := by
  unfold parseAutoDepositExecuted at h
  try dsimp only at h
  repeat' split at h
  all_goals cases h
  all_goals rfl

theorem parseAutoWithdrawExecuted_ok_id {log : Log} {id txh : String} {bn ts : Nat}
    {e : AutoWithdrawExecuted} (h : parseAutoWithdrawExecuted log id bn ts txh = .ok e) :
    e.id = id := by
  unfold parseAutoWithdrawExecuted at h
  try dsimp only at h
  repeat' split at h
  all_goals cases h
  all_goals rfl

theorem parseOwnershipTransferred_ok_id {log : Log} {id txh : String} {bn ts : Nat}
    {e : OwnershipTransferred} (h : parseOwnershipTransferred log id bn ts txh = .ok e) :
    e.id = id := by
  unfold parseOwnershipTransferred at h
  try dsimp only at h
  repeat' split at h
  all_goals cases h
  all_goals rfl

theorem parsePaused_ok_id {log : Log} {id txh : String} {bn ts : Nat}
    {e : Paused} (h : parsePaused log id bn ts txh = .ok e) : e.id = id := by
  unfold parsePaused at h
  try dsimp only at h
  repeat' split at h
  all_goals cases h
  all_goals rfl

theorem parseProtocolRegistered_ok_id {log : Log} {id txh : String} {bn ts : Nat}
    {e : ProtocolRegistered} (h : parseProtocolRegistered log id bn ts txh = .ok e) :
    e.id = id := by
  unfold parseProtocolRegistered at h
  try dsimp only at h
  repeat' split at h
  all_goals cases h
  all_goals rfl

theorem parseProtocolUpdated_ok_id {log : Log} {id txh : String} {bn ts : Nat}
    {e : ProtocolUpdated} (h : parseProtocolUpdated log id bn ts txh = .ok e) :
    e.id = id := by
  unfold parseProtocolUpdated at h
  try dsimp only at h
  repeat' split at h
  all_goals cases h
  all_goals rfl

theorem parseUnpaused_ok_id {log : Log} {id txh : String} {bn ts : Nat}
    {e : Unpaused} (h : parseUnpaused log id bn ts txh = .ok e) : e.id = id := by
  unfold parseUnpaused at h
  try dsimp only at h
  repeat' split at h
  all_goals cases h
  all_goals rfl

/-- Any entity produced by the whizy switch carries the synthesized id. -/
theorem whizyDispatch_ok_id {cfg : ContractsCfg} {log : Log} {addr : String}
    {ts : Nat} {sig : List Nat} {id : String} {bn : Nat} {txh : String}
    {r : PResult Entity} {e : Entity}
    (h : whizyDispatch cfg log addr ts sig id bn txh = some r)
    (h2 : r = .ok e) : e.entityId = id := by
  unfold whizyDispatch at h
  repeat' split at h
  all_goals first
    | (injection h with h
       rw [← h] at h2
       obtain ⟨v, hv, he⟩ := mapOkEntity h2
       subst he
       first
       | exact parseBetPlaced_ok_id hv
       | exact parseMarketCreated_ok_id hv
       | exact parseMarketResolved_ok_id hv
       | exact parseWinningsClaimed_ok_id hv)
    | cases h

/-- Any entity produced by the protocol switch carries the synthesized id. -/
theorem protocolDispatch_ok_id {cfg : ContractsCfg} {log : Log} {addr : String}
    {ts : Nat} {sig : List Nat} {id : String} {bn : Nat} {txh : String}
    {r : PResult Entity} {e : Entity}
    (h : protocolDispatch cfg log addr ts sig id bn txh = some r)
    (h2 : r = .ok e) : e.entityId = id := by
  unfold protocolDispatch at h
  repeat' split at h
  all_goals first
    | (injection h with h
       rw [← h] at h2
       obtain ⟨v, hv, he⟩ := mapOkEntity h2
       subst he
       first
       | exact parseAutoDepositExecuted_ok_id hv
       | exact parseAutoWithdrawExecuted_ok_id hv
       | exact parseOwnershipTransferred_ok_id hv
       | exact parsePaused_ok_id hv
       | exact parseProtocolRegistered_ok_id hv
       | exact parseProtocolUpdated_ok_id hv
       | exact parseUnpaused_ok_id hv)
    | cases h

/-- C8: every entity ParseLog successfully decodes, of any event kind,
    has ID equal to the transaction hash, a hyphen, and the decimal log
    index. -/
theorem c8_entity_id_format (cfg : ContractsCfg) (log : Log) (addr : String)
    (ts : Nat) (e : Entity) (h : ParseLog cfg log addr ts = .ok e) :
    e.entityId = hashHex log.txHash ++ "-" ++ toString log.index := by
  unfold ParseLog at h
  cases hl : log.topics with
  | nil =>
    rw [hl] at h
    cases h
  | cons sig rest =>
    rw [hl] at h
    try dsimp only at h
    split at h
    · next r hr => exact whizyDispatch_ok_id hr h
    · split at h
      · next r hr => exact protocolDispatch_ok_id hr h
      · cases h

/-- C8 witness: a concrete Paused log decodes with the synthesized id. -/
theorem c8_witness :
    ParseLog c8Cfg c8Log "0X02" 77 = .ok c8Entity ∧
    c8Entity.entityId = hashHex c8Log.txHash ++ "-" ++ toString c8Log.index := by
  have h : ParseLog c8Cfg c8Log "0X02" 77 = .ok c8Entity := by decide
  exact ⟨h, c8_entity_id_format c8Cfg c8Log "0X02" 77 c8Entity h⟩

/-- C5 witness: a concrete one-topic BetPlaced log is rejected. -/
theorem c5_witness :
    ParseLog { whizyAddress := "0xW", protocolAddress := "0xP" }
      { topics := [BetPlacedSignature], data := [], blockNumber := 1,
        txHash := List.replicate 32 0, index := 0 } "0xw" 5 =
      .failure "insufficient topics for BetPlaced" := by
  exact c5_insufficient_topics { whizyAddress := "0xW", protocolAddress := "0xP" }
    { topics := [BetPlacedSignature], data := [], blockNumber := 1,
      txHash := List.replicate 32 0, index := 0 } "0xw" 5 [] rfl
    (by simp) (by decide)

/- C9: routing case-insensitivity. -/

/-- C9 counterexample: two contractAddress arguments differing only in
    ASCII case give different ParseLog results, because the
    unknown-event error message echoes the address verbatim. -/
theorem c9_counterexample :
    asciiLower "0XAB" = asciiLower "0xab" ∧
    ParseLog c9Cfg c9Log "0XAB" 0 ≠ ParseLog c9Cfg c9Log "0xab" 0 := by
  constructor
  · decide
  · decide

/-- C9 amended: ParseLog routing is invariant under ASCII case of the
    contractAddress argument — the results are identical unless both are
    the unknown-event error, which differs only by echoing the given
    address spelling in its message. -/
theorem c9_routing_case_insensitive (cfg : ContractsCfg) (log : Log)
    (addr addr' : String) (ts : Nat)
    (hfold : asciiLower addr = asciiLower addr') :
    ParseLog cfg log addr ts = ParseLog cfg log addr' ts ∨
    (∃ sig rest, log.topics = sig :: rest ∧
      ParseLog cfg log addr ts = .failure (unknownEventMsg sig addr) ∧
      ParseLog cfg log addr' ts = .failure (unknownEventMsg sig addr')) := by
  have hw : eqFold addr cfg.whizyAddress = eqFold addr' cfg.whizyAddress := by
    simp [eqFold, hfold]
  have hp2 : eqFold addr cfg.protocolAddress = eqFold addr' cfg.protocolAddress := by
    simp [eqFold, hfold]
  have hwd : ∀ sig id bn txh, whizyDispatch cfg log addr ts sig id bn txh
      = whizyDispatch cfg log addr' ts sig id bn txh := by
    intro sig id bn txh
    unfold whizyDispatch
    rw [hw]
  have hpd : ∀ sig id bn txh, protocolDispatch cfg log addr ts sig id bn txh
      = protocolDispatch cfg log addr' ts sig id bn txh := by
    intro sig id bn txh
    unfold protocolDispatch
    rw [hp2]
  unfold ParseLog
  cases hl : log.topics with
  | nil => left; rfl
  | cons sig rest =>
    try dsimp only
    rw [hwd, hpd]
    cases hW : whizyDispatch cfg log addr' ts sig
        (hashHex log.txHash ++ "-" ++ toString log.index) log.blockNumber
        (hashHex log.txHash) with
    | some r => left; rfl
    | none =>
      cases hP : protocolDispatch cfg log addr' ts sig
          (hashHex log.txHash ++ "-" ++ toString log.index) log.blockNumber
          (hashHex log.txHash) with
      | some r => left; rfl
      | none => right; exact ⟨sig, rest, rfl, rfl, rfl⟩

/-- C9 witness: the amended statement applied to the concrete
    case-differing pair of the counterexample. -/
theorem c9_witness :
    ParseLog c9Cfg c9Log "0XAB" 0 = ParseLog c9Cfg c9Log "0xab" 0 ∨
    (∃ sig rest, c9Log.topics = sig :: rest ∧
      ParseLog c9Cfg c9Log "0XAB" 0 = .failure (unknownEventMsg sig "0XAB") ∧
      ParseLog c9Cfg c9Log "0xab" 0 = .failure (unknownEventMsg sig "0xab")) :=
  c9_routing_case_insensitive c9Cfg c9Log "0XAB" "0xab" 0 (by decide)

/- C7: unknown events are rejected and skipped without halting the batch. -/

theorem lookupTs_sound {env : CycleEnv} {cache : List (Nat × Nat)}
    (hc : ∀ p ∈ cache, p.2 = directTs env p.1) {n t : Nat}
    (h : lookupTs cache n = some t) : t = directTs env n := by
  induction cache with
  | nil => cases h
  | cons p rest ih =>
    obtain ⟨k, v⟩ := p
    unfold lookupTs at h
    split at h
    · next heq =>
      cases h
      rw [← heq]
      exact hc (k, t) (by simp)
    · exact ih (fun q hq => hc q (by simp [hq])) h

theorem resolveTs_spec (env : CycleEnv) (cache : List (Nat × Nat)) (bn : Nat)
    (hc : ∀ p ∈ cache, p.2 = directTs env p.1) :
    (resolveTs env cache bn).1 = directTs env bn ∧
    ∀ p ∈ (resolveTs env cache bn).2, p.2 = directTs env p.1 := by
  unfold resolveTs
  cases hl : lookupTs cache bn with
  | some t => exact ⟨lookupTs_sound hc hl, hc⟩
  | none =>
    refine ⟨rfl, ?_⟩
    intro p hp
    rcases List.mem_cons.mp hp with h | h
    · rw [h]
    · exact hc p h

theorem decodeLogs_eq_pure (cfg : ContractsCfg) (env : CycleEnv) (addr : String) :
    ∀ (logs : List Log) (cache : List (Nat × Nat)),
    (∀ p ∈ cache, p.2 = directTs env p.1) →
    decodeLogs cfg env addr logs cache = decodeLogsPure cfg env addr logs := by
  intro logs
  induction logs with
  | nil => intro cache hc; rfl
  | cons log rest ih =>
    intro cache hc
    obtain ⟨h1, h2⟩ := resolveTs_spec env cache log.blockNumber hc
    unfold decodeLogs decodeLogsPure
    try dsimp only
    rw [h1, ih _ h2]

theorem decodeLogsPure_skip (cfg : ContractsCfg) (env : CycleEnv) (addr : String)
    (bad : Log)
    (hfail : (ParseLog cfg bad addr (directTs env bad.blockNumber)).isFailure = true) :
    ∀ pre post, decodeLogsPure cfg env addr (pre ++ bad :: post) =
      decodeLogsPure cfg env addr (pre ++ post) := by
  intro pre
  induction pre with
  | nil =>
    intro post
    simp only [List.nil_append]
    simp only [decodeLogsPure]
    cases hr : ParseLog cfg bad addr (directTs env bad.blockNumber) with
    | panicked => rw [hr] at hfail; cases hfail
    | failure m => rfl
    | ok e => rw [hr] at hfail; cases hfail
  | cons l restPre ih =>
    intro post
    simp only [List.cons_append]
    simp only [decodeLogsPure]
    rw [ih post]

/-- A log whose topic0 matches no signature of its (case-insensitively
    matched) contract — or whose contract matches neither monitored
    address — is rejected with the unknown-event error. -/
theorem parseLog_unknown (cfg : ContractsCfg) (log : Log) (addr : String) (ts : Nat)
    (sig : List Nat) (rest : List (List Nat))
    (htopics : log.topics = sig :: rest)
    (hwhizy : eqFold addr cfg.whizyAddress = true →
      sig ≠ BetPlacedSignature ∧ sig ≠ MarketCreatedSignature ∧
      sig ≠ MarketResolvedSignature ∧ sig ≠ WinningsClaimedSignature)
    (hproto : eqFold addr cfg.protocolAddress = true →
      sig ≠ AutoDepositExecutedSignature ∧ sig ≠ AutoWithdrawExecutedSignature ∧
      sig ≠ OwnershipTransferredSignature ∧ sig ≠ PausedSignature ∧
      sig ≠ ProtocolRegisteredSignature ∧ sig ≠ ProtocolUpdatedSignature ∧
      sig ≠ UnpausedSignature) :
    ParseLog cfg log addr ts = .failure (unknownEventMsg sig addr) := by
  have hW : ∀ id bn txh, whizyDispatch cfg log addr ts sig id bn txh = none := by
    intro id bn txh
    unfold whizyDispatch
    by_cases hf : eqFold addr cfg.whizyAddress = true
    · obtain ⟨h1, h2, h3, h4⟩ := hwhizy hf
      simp [hf, h1, h2, h3, h4]
    · simp [hf]
  have hP : ∀ id bn txh, protocolDispatch cfg log addr ts sig id bn txh = none := by
    intro id bn txh
    unfold protocolDispatch
    by_cases hf : eqFold addr cfg.protocolAddress = true
    · obtain ⟨h1, h2, h3, h4, h5, h6, h7⟩ := hproto hf
      simp [hf, h1, h2, h3, h4, h5, h6, h7]
    · simp [hf]
  unfold ParseLog
  rw [htopics]
  try dsimp only
  rw [hW, hP]

/-- C7: a log whose topic0 matches no known signature for its contract
    (or whose contract address matches neither monitored contract) is
    rejected by ParseLog with the unknown-event error and yields no
    entity, and the decode loop skips it while decoding every other log
    of the batch exactly as it would without it. -/
theorem c7_unknown_event_skipped (cfg : ContractsCfg) (env : CycleEnv)
    (addr : String) (bad : Log) (sig : List Nat) (rest : List (List Nat))
    (htopics : bad.topics = sig :: rest)
    (hwhizy : eqFold addr cfg.whizyAddress = true →
      sig ≠ BetPlacedSignature ∧ sig ≠ MarketCreatedSignature ∧
      sig ≠ MarketResolvedSignature ∧ sig ≠ WinningsClaimedSignature)
    (hproto : eqFold addr cfg.protocolAddress = true →
      sig ≠ AutoDepositExecutedSignature ∧ sig ≠ AutoWithdrawExecutedSignature ∧
      sig ≠ OwnershipTransferredSignature ∧ sig ≠ PausedSignature ∧
      sig ≠ ProtocolRegisteredSignature ∧ sig ≠ ProtocolUpdatedSignature ∧
      sig ≠ UnpausedSignature) :
    (∀ ts, ParseLog cfg bad addr ts = .failure (unknownEventMsg sig addr)) ∧
    (∀ pre post, decodeLogs cfg env addr (pre ++ bad :: post) [] =
      decodeLogs cfg env addr (pre ++ post) []) := by
  have hu : ∀ ts, ParseLog cfg bad addr ts = .failure (unknownEventMsg sig addr) :=
    fun ts => parseLog_unknown cfg bad addr ts sig rest htopics hwhizy hproto
  refine ⟨hu, fun pre post => ?_⟩
  rw [decodeLogs_eq_pure cfg env addr _ [] (by simp),
    decodeLogs_eq_pure cfg env addr _ [] (by simp)]
  exact decodeLogsPure_skip cfg env addr bad (by rw [hu]; rfl) pre post

/-- C7 witness: a concrete log from an unmonitored address is rejected
    with the unknown-event error and skipped by the decode loop. -/
theorem c7_witness :
    ParseLog c7Cfg c7Bad "0xcc" 0 =
      .failure (unknownEventMsg (List.replicate 32 1) "0xcc") ∧
    decodeLogs c7Cfg c7Env "0xcc" ([] ++ c7Bad :: []) [] =
      decodeLogs c7Cfg c7Env "0xcc" ([] ++ []) [] := by
  have h := c7_unknown_event_skipped c7Cfg c7Env "0xcc" c7Bad
    (List.replicate 32 1) [] rfl
    (fun hf => absurd hf (by decide)) (fun hf => absurd hf (by decide))
  exact ⟨h.1 0, h.2 [] []⟩

/- C1 / C2 / C6: the cycle and cursor invariants. -/

theorem uint64OfInt_small {x : Int} (h0 : 0 ≤ x) (h1 : x < 2 ^ 63) :
    uint64OfInt x = x.toNat := by
  unfold uint64OfInt
  omega

theorem int64OfNat_small {n : Nat} (h : n < 2 ^ 63) : int64OfNat n = (n : Int) := by
  unfold int64OfNat
  have hm : n % 2 ^ 64 = n := Nat.mod_eq_of_lt (by omega)
  try dsimp only
  rw [hm, if_pos h]

/-- When the cursor has reached the latest height, no range is produced. -/
theorem computeRange_none {batchSize lastBlock : Int} {latest : Nat}
    (hs0 : 0 ≤ lastBlock) (hs1 : lastBlock < 2 ^ 63)
    (h : latest ≤ lastBlock.toNat) :
    computeRange batchSize lastBlock latest = none := by
  unfold computeRange
  rw [uint64OfInt_small hs0 hs1]
  try dsimp only
  rw [if_pos h]

/-- Below the latest height the produced range is exactly
    [cursor+1, min (cursor+batchSize) latest]. -/
theorem computeRange_some {batchSize lastBlock : Int} {latest : Nat}
    (hb0 : 0 ≤ batchSize) (hb1 : batchSize < 2 ^ 63)
    (hs0 : 0 ≤ lastBlock) (hs1 : lastBlock < 2 ^ 63)
    (h : lastBlock.toNat < latest) :
    computeRange batchSize lastBlock latest =
      some (lastBlock.toNat + 1, min (lastBlock.toNat + batchSize.toNat) latest) := by
  unfold computeRange
  rw [uint64OfInt_small hs0 hs1, uint64OfInt_small hb0 hb1]
  try dsimp only
  rw [if_neg (by omega)]
  have h1 : (lastBlock.toNat + 1) % 2 ^ 64 = lastBlock.toNat + 1 := by omega
  have h2 : (lastBlock.toNat + 1 + batchSize.toNat + (2 ^ 64 - 1)) % 2 ^ 64 =
      lastBlock.toNat + batchSize.toNat := by omega
  rw [h1, h2]
  have h3 : (if lastBlock.toNat + batchSize.toNat > latest then latest
      else lastBlock.toNat + batchSize.toNat) =
      min (lastBlock.toNat + batchSize.toNat) latest := by
    split <;> omega
  rw [h3]

theorem storeEntitiesOver_failure (insertErr : Kind → Option String)
    (entities : List Entity) (k : Kind) (msg : String)
    (hne : (entities.filter (fun e => e.kind == k)).isEmpty = false)
    (he : insertErr k = some msg) :
    ∀ ks : List Kind, k ∈ ks →
      ∃ m, storeEntitiesOver insertErr entities ks = .error m := by
  intro ks
  induction ks with
  | nil => intro hk; cases hk
  | cons k0 rest ih =>
    intro hk
    simp only [storeEntitiesOver]
    by_cases h0 : (entities.filter (fun e => e.kind == k0)).isEmpty = true
    · rw [if_pos h0]
      refine ih ?_
      rcases List.mem_cons.mp hk with h | h
      · subst h
        rw [hne] at h0
        cases h0
      · exact h
    · rw [if_neg h0]
      cases hie : insertErr k0 with
      | some m => exact ⟨_, rfl⟩
      | none =>
        refine ih ?_
        rcases List.mem_cons.mp hk with h | h
        · subst h
          rw [he] at hie
          cases hie
        · exact h

/-- C1: the cursor is updated and persisted only when processBlockRange
    succeeded; a failing per-kind insert surfaces through storeEntities
    and processBlockRange, the cycle leaves the stored sync state
    untouched, and the same range is recomputed from it. -/
theorem c1_cursor_advances_only_after_successful_write :
    (∀ (insertErr : Kind → Option String) (entities : List Entity) (k : Kind)
        (msg : String),
      (∃ e ∈ entities, e.kind = k) → insertErr k = some msg →
      ∃ m, storeEntities insertErr entities = .error m) ∧
    (∀ (cfg : ContractsCfg) (env : CycleEnv) (addr : String) (f t : Nat)
        (logs : List Log) (entities : List Entity) (m : String),
      env.logsResult = .ok logs → logs.isEmpty = false →
      decodeLogs cfg env addr logs [] = .ok entities → entities.isEmpty = false →
      storeEntities env.insertErr entities = .error m →
      processBlockRange cfg env addr f t = .failure m) ∧
    (∀ (cfg : ContractsCfg) (batchSize : Int) (addr : String) (st : SyncState)
        (env : CycleEnv) (latest : Nat) (f t : Nat),
      env.readOk = true → env.height = some latest →
      computeRange batchSize st.lastBlock latest = some (f, t) →
      (processBlockRange cfg env addr f t).isFailure = true →
      indexCycle cfg batchSize addr st env = (st, .rangeErr f t) ∧
      computeRange batchSize
        (indexCycle cfg batchSize addr st env).1.lastBlock latest = some (f, t)) ∧
    (∀ (cfg : ContractsCfg) (batchSize : Int) (addr : String) (st : SyncState)
        (env : CycleEnv) (st' : SyncState) (r : CycleResult),
      indexCycle cfg batchSize addr st env = (st', r) → st' ≠ st →
      ∃ f t, r = .ok f t ∧ (processBlockRange cfg env addr f t).isOk = true ∧
        env.saveOk = true ∧ st'.lastBlock = int64OfNat t) := by
  refine ⟨?_, ?_, ?_, ?_⟩
  · intro insertErr entities k msg hmem he
    obtain ⟨e, hel, hek⟩ := hmem
    have hf : e ∈ entities.filter (fun x => x.kind == k) :=
      List.mem_filter.mpr ⟨hel, by simp [hek]⟩
    have hne : (entities.filter (fun x => x.kind == k)).isEmpty = false := by
      cases hfe : (entities.filter (fun x => x.kind == k)).isEmpty
      · rfl
      · have hnil : entities.filter (fun x => x.kind == k) = [] := by
          simpa using hfe
        rw [hnil] at hf
        cases hf
    exact storeEntitiesOver_failure insertErr entities k msg hne he kindOrder
      (by cases k <;> simp [kindOrder])
  · intro cfg env addr f t logs entities m hlogs hlne hdec hene hstore
    unfold processBlockRange
    rw [hlogs]
    try dsimp only
    rw [hlne]
    try dsimp only
    rw [hdec]
    try dsimp only
    rw [hene]
    try dsimp only
    rw [hstore]
    rfl
  · intro cfg batchSize addr st env latest f t hread hheight hrange hfail
    have hcycle : indexCycle cfg batchSize addr st env = (st, .rangeErr f t) := by
      unfold indexCycle
      rw [hread]
      try dsimp only
      rw [hheight]
      try dsimp only
      rw [hrange]
      try dsimp only
      cases hpr : processBlockRange cfg env addr f t with
      | panicked => rw [hpr] at hfail; cases hfail
      | failure m => rfl
      | ok u => rw [hpr] at hfail; cases hfail
    refine ⟨hcycle, ?_⟩
    rw [hcycle]
    exact hrange
  · intro cfg batchSize addr st env st' r h hne
    unfold indexCycle at h
    cases hr : env.readOk with
    | false =>
      rw [hr] at h
      try dsimp only at h
      injection h with h1 h2
      exact absurd h1.symm hne
    | true =>
      rw [hr] at h
      try dsimp only at h
      cases hh : env.height with
      | none =>
        rw [hh] at h
        injection h with h1 h2
        exact absurd h1.symm hne
      | some latest =>
        rw [hh] at h
        try dsimp only at h
        cases hcr : computeRange batchSize st.lastBlock latest with
        | none =>
          rw [hcr] at h
          injection h with h1 h2
          exact absurd h1.symm hne
        | some ft =>
          obtain ⟨f0, t0⟩ := ft
          rw [hcr] at h
          try dsimp only at h
          cases hpr : processBlockRange cfg env addr f0 t0 with
          | panicked =>
            rw [hpr] at h
            injection h with h1 h2
            exact absurd h1.symm hne
          | failure m =>
            rw [hpr] at h
            injection h with h1 h2
            exact absurd h1.symm hne
          | ok u =>
            rw [hpr] at h
            try dsimp only at h
            cases hs : env.saveOk with
            | false =>
              rw [hs] at h
              try dsimp only at h
              injection h with h1 h2
              exact absurd h1.symm hne
            | true =>
              rw [hs] at h
              try dsimp only at h
              injection h with h1 h2
              refine ⟨f0, t0, h2.symm, by rw [hpr]; rfl, rfl, ?_⟩
              rw [← h1]

/-- C1 witness: concrete instances of all four conjuncts. -/
theorem c1_witness :
    (∃ m, storeEntities (fun _ => some "db down") [cwPausedEntity] = .error m) ∧
    processBlockRange cwCfg cwEnvInsertFail "0X02" 6 10 =
      .failure ("failed to insert " ++ kindName Kind.paused ++ ": " ++ "db down") ∧
    (indexCycle cwCfg 5 "0x01" cwState cwEnvFail = (cwState, .rangeErr 6 10) ∧
      computeRange 5 (indexCycle cwCfg 5 "0x01" cwState cwEnvFail).1.lastBlock 20 =
        some (6, 10)) ∧
    (∃ f t, CycleResult.ok 6 10 = .ok f t ∧
      (processBlockRange cwCfg cwEnvOk "0x01" f t).isOk = true ∧
      cwEnvOk.saveOk = true ∧
      ({ cwState with lastBlock := 10 } : SyncState).lastBlock = int64OfNat t) := by
  refine ⟨?_, ?_, ?_, ?_⟩
  · exact c1_cursor_advances_only_after_successful_write.1
      (fun _ => some "db down") [cwPausedEntity] Kind.paused "db down"
      ⟨cwPausedEntity, by simp, rfl⟩ rfl
  · exact c1_cursor_advances_only_after_successful_write.2.1
      cwCfg cwEnvInsertFail "0X02" 6 10 _ [cwPausedEntity] _
      rfl (by decide) (by decide) (by decide)
      (show storeEntities cwEnvInsertFail.insertErr [cwPausedEntity] =
        .error ("failed to insert " ++ kindName Kind.paused ++ ": " ++ "db down")
        from rfl)
  · exact c1_cursor_advances_only_after_successful_write.2.2.1
      cwCfg 5 "0x01" cwState cwEnvFail 20 6 10 rfl rfl (by decide) (by decide)
  · exact c1_cursor_advances_only_after_successful_write.2.2.2
      cwCfg 5 "0x01" cwState cwEnvOk ({ cwState with lastBlock := 10 }) (.ok 6 10)
      (by decide) (by decide)

/-- C6: in each cycle, nothing is processed when the cursor has reached
    the latest chain height (the loop idles); otherwise the processed
    range is exactly [cursor+1, min (cursor+batchSize) latestHeight],
    whose upper bound never exceeds the latest height. -/
theorem c6_range_computation (batchSize lastBlock : Int) (latest : Nat)
    (hb0 : 0 < batchSize) (hb1 : batchSize < 2 ^ 63)
    (hs0 : 0 ≤ lastBlock) (hs1 : lastBlock < 2 ^ 63) :
    (latest ≤ lastBlock.toNat → computeRange batchSize lastBlock latest = none) ∧
    (lastBlock.toNat < latest →
      computeRange batchSize lastBlock latest =
        some (lastBlock.toNat + 1, min (lastBlock.toNat + batchSize.toNat) latest)) ∧
    (∀ f t, computeRange batchSize lastBlock latest = some (f, t) →
      f = lastBlock.toNat + 1 ∧ t ≤ latest) ∧
    (∀ (cfg : ContractsCfg) (addr : String) (st : SyncState) (env : CycleEnv),
      env.readOk = true → env.height = some latest →
      computeRange batchSize st.lastBlock latest = none →
      indexCycle cfg batchSize addr st env = (st, .idle)) := by
  refine ⟨?_, ?_, ?_, ?_⟩
  · intro h
    exact computeRange_none hs0 hs1 h
  · intro h
    exact computeRange_some (by omega) hb1 hs0 hs1 h
  · intro f t h
    by_cases hlt : lastBlock.toNat < latest
    · rw [computeRange_some (by omega) hb1 hs0 hs1 hlt] at h
      injection h with h1
      injection h1 with hf ht
      constructor
      · omega
      · omega
    · rw [computeRange_none hs0 hs1 (by omega)] at h
      cases h
  · intro cfg addr st env hread hheight hnone
    unfold indexCycle
    rw [hread]
    try dsimp only
    rw [hheight]
    try dsimp only
    rw [hnone]
    rfl

/-- C6 witness: cursor 10 at height 10 idles; cursor 10, batch 5,
    height 20 yields the range [11, 15]. -/
theorem c6_witness :
    computeRange 5 10 10 = none ∧ computeRange 5 10 20 = some (11, 15) := by
  have h1 := (c6_range_computation 5 10 10 (by decide) (by decide) (by decide)
    (by decide)).1 (by decide)
  have h2 := (c6_range_computation 5 10 20 (by decide) (by decide) (by decide)
    (by decide)).2.1 (by decide)
  refine ⟨h1, ?_⟩
  rw [h2]
  decide

/-- One successful cycle advances the stored cursor to exactly the
    processed toBlock, never decreases it, and preserves its bounds. -/
theorem indexCycle_ok_step (cfg : ContractsCfg) (batchSize : Int) (addr : String)
    (st : SyncState) (env : CycleEnv) (st' : SyncState) (f t : Nat)
    (hb0 : 0 ≤ batchSize) (hb1 : batchSize < 2 ^ 63)
    (hs0 : 0 ≤ st.lastBlock) (hs1 : st.lastBlock < 2 ^ 63)
    (hlat : ∀ l, env.height = some l → l < 2 ^ 63)
    (h : indexCycle cfg batchSize addr st env = (st', .ok f t)) :
    st'.lastBlock = (t : Int) ∧ st.lastBlock ≤ st'.lastBlock ∧
      0 ≤ st'.lastBlock ∧ st'.lastBlock < 2 ^ 63 := by
  unfold indexCycle at h
  cases hr : env.readOk with
  | false =>
    rw [hr] at h
    try dsimp only at h
    injection h with h1 h2
    cases h2
  | true =>
    rw [hr] at h
    try dsimp only at h
    cases hh : env.height with
    | none =>
      rw [hh] at h
      injection h with h1 h2
      cases h2
    | some latest =>
      rw [hh] at h
      try dsimp only at h
      have hlt : latest < 2 ^ 63 := hlat latest hh
      by_cases hcl : st.lastBlock.toNat < latest
      case neg =>
        rw [computeRange_none hs0 hs1 (by omega)] at h
        injection h with h1 h2
        cases h2
      case pos =>
        rw [computeRange_some hb0 hb1 hs0 hs1 hcl] at h
        try dsimp only at h
        cases hpr : processBlockRange cfg env addr (st.lastBlock.toNat + 1)
            (min (st.lastBlock.toNat + batchSize.toNat) latest) with
        | panicked =>
          rw [hpr] at h
          injection h with h1 h2
          cases h2
        | failure m =>
          rw [hpr] at h
          injection h with h1 h2
          cases h2
        | ok u =>
          rw [hpr] at h
          try dsimp only at h
          cases hs : env.saveOk with
          | false =>
            rw [hs] at h
            try dsimp only at h
            injection h with h1 h2
            cases h2
          | true =>
            rw [hs] at h
            try dsimp only at h
            injection h with h1 h2
            injection h2 with hf ht
            have htlt : t < 2 ^ 63 := by omega
            have hint : int64OfNat t = (t : Int) := int64OfNat_small htlt
            rw [← h1]
            try dsimp only
            rw [ht, hint]
            refine ⟨rfl, ?_, ?_, ?_⟩ <;> omega

/-- C2: over any sequence of successful cycles, the stored cursor is
    monotonically non-decreasing, and after each successful cycle it
    equals the toBlock of the range just processed. -/
theorem c2_cursor_monotonic (cfg : ContractsCfg) (batchSize : Int) (addr : String) :
    ∀ (envs : List CycleEnv) (st : SyncState),
    0 ≤ batchSize → batchSize < 2 ^ 63 →
    0 ≤ st.lastBlock → st.lastBlock < 2 ^ 63 →
    (∀ env ∈ envs, ∀ l, env.height = some l → l < 2 ^ 63) →
    (∀ p ∈ runTrace cfg batchSize addr st envs, p.2.isOk = true) →
    List.Chain' (· ≤ ·)
      (st.lastBlock ::
        (runTrace cfg batchSize addr st envs).map (fun p => p.1.lastBlock)) ∧
    (∀ p ∈ runTrace cfg batchSize addr st envs, ∀ f t, p.2 = .ok f t →
      p.1.lastBlock = (t : Int)) := by
  intro envs
  induction envs with
  | nil =>
    intro st _ _ _ _ _ _
    exact ⟨List.chain'_singleton _, by simp [runTrace]⟩
  | cons env rest ih =>
    intro st hb0 hb1 hs0 hs1 hlat hok
    have hmem0 : indexCycle cfg batchSize addr st env ∈
        runTrace cfg batchSize addr st (env :: rest) := by
      simp [runTrace]
    have hstep := hok _ hmem0
    obtain ⟨f, t, hft⟩ : ∃ f t,
        (indexCycle cfg batchSize addr st env).2 = .ok f t := by
      cases h2 : (indexCycle cfg batchSize addr st env).2 with
      | ok f t => exact ⟨f, t, rfl⟩
      | readErr => rw [h2] at hstep; simp [CycleResult.isOk] at hstep
      | heightErr => rw [h2] at hstep; simp [CycleResult.isOk] at hstep
      | idle => rw [h2] at hstep; simp [CycleResult.isOk] at hstep
      | rangeErr a b => rw [h2] at hstep; simp [CycleResult.isOk] at hstep
      | crash a b => rw [h2] at hstep; simp [CycleResult.isOk] at hstep
      | saveErr a b => rw [h2] at hstep; simp [CycleResult.isOk] at hstep
    have hpair : indexCycle cfg batchSize addr st env =
        ((indexCycle cfg batchSize addr st env).1, .ok f t) := by
      rw [← hft]
    obtain ⟨he, hmono, hp0, hp1⟩ := indexCycle_ok_step cfg batchSize addr st env
      (indexCycle cfg batchSize addr st env).1 f t hb0 hb1 hs0 hs1
      (fun l hl => hlat env (by simp) l hl) hpair
    have htr : runTrace cfg batchSize addr st (env :: rest) =
        indexCycle cfg batchSize addr st env ::
          runTrace cfg batchSize addr ((indexCycle cfg batchSize addr st env).1) rest := by
      simp [runTrace]
    obtain ⟨ihchain, iheq⟩ := ih (indexCycle cfg batchSize addr st env).1
      hb0 hb1 hp0 hp1
      (fun e hel => hlat e (by simp [hel]))
      (fun p hp => hok p (by rw [htr]; exact List.mem_cons_of_mem _ hp))
    constructor
    · rw [htr]
      simp only [List.map_cons]
      exact List.chain'_cons.mpr ⟨hmono, ihchain⟩
    · intro p hp f2 t2 hp2
      rw [htr] at hp
      rcases List.mem_cons.mp hp with hhead | htail
      · subst hhead
        rw [hft] at hp2
        injection hp2 with hfe hte
        rw [he, hte]
      · exact iheq p htail f2 t2 hp2

/-- C2 witness: two successful cycles (heights 7 then 20, batch 5) give
    a non-decreasing cursor trace whose entries equal the processed
    toBlocks. -/
theorem c2_witness :
    List.Chain' (· ≤ ·)
      (cwState0.lastBlock ::
        (runTrace cwCfg 5 "0x01" cwState0 [cwEnvA, cwEnvB]).map
          (fun p => p.1.lastBlock)) ∧
    (∀ p ∈ runTrace cwCfg 5 "0x01" cwState0 [cwEnvA, cwEnvB], ∀ f t,
      p.2 = .ok f t → p.1.lastBlock = (t : Int)) := by
  refine c2_cursor_monotonic cwCfg 5 "0x01" [cwEnvA, cwEnvB] cwState0
    (by decide) (by decide) (by decide) (by decide) ?_ (by decide)
  intro env he l hl
  rcases List.mem_cons.mp he with h | h
  · subst h
    injection hl with h2
    omega
  · rcases List.mem_cons.mp h with h3 | h3
    · subst h3
      injection hl with h2
      omega
    · cases h3
